import Mathlib

/-! Verification of apt-cli-wrappers (src/lib.rs) against its specification.

The child's standard output, opened in non-blocking mode, is modelled as a
list of read events: each attempt to pull bytes from the pipe either yields a
chunk of characters, reports `EWOULDBLOCK`, or reports a genuine I/O error;
once the list is exhausted every further read reports end-of-file.  On top of
that model we embed, faithfully to the source:

  * `read_line` of `BufRead` (appends bytes up to and including the first
    newline to the caller's buffer, returning the byte count; on
    would-block/error the bytes read so far stay in the buffer);
  * `non_blocking_line_reading` (lib.rs lines 199-220);
  * the supervisor polling loop of `apt_noninteractive_callback`
    (lib.rs lines 53-63), with the child's exit observed after a given
    number of polls;
  * the command construction of `apt_noninteractive`,
    `apt_noninteractive_callback` and every exposed operation;
  * the post-processing of `installed` (lib.rs lines 179-187), with
    the panic of `Option::unwrap` made explicit.

`wait_for_apt_locks` (apt_lock.rs), `AptUpgradeEvent` parsing
(upgrade_event.rs) and the exit-status classification (the external
exit_status_ext crate) are not under src/; those parts are modelled from the
spec and are marked as such in their doc comments.
-/

/-- One attempted non-blocking read from the child's stdout pipe: a chunk of
available bytes, a read that would block, or a genuine I/O error.  After the
list of events is exhausted, reads report end-of-file. -/
inductive ReadEvent
  | data (s : List Char)
  | wouldBlock
  | ioError
deriving DecidableEq

/-- All characters the stream's data chunks carry, in order. -/
def dataConcat : List ReadEvent → List Char
  | [] => []
  | .data s :: evs => s ++ dataConcat evs
  | .wouldBlock :: evs => dataConcat evs
  | .ioError :: evs => dataConcat evs

/-- Result of one `read_line` call: `Ok(n)` (n bytes appended, 0 at
end-of-file), `Err(WouldBlock)`, or a genuine I/O error. -/
inductive ReadResult
  | ok (n : Nat)
  | wouldBlock
  | ioError
deriving DecidableEq

/-- State after a `read_line` call: its result, the unread events, the bytes
pulled from the pipe but not yet consumed (the `BufReader`'s internal
buffer), and the caller's line buffer. -/
structure LineOutcome where
  res : ReadResult
  events : List ReadEvent
  pending : List Char
  buf : List Char
deriving DecidableEq

/-- Scan a chunk for the first newline: the prefix up to and including it,
the remainder, and whether a newline was found.  When no newline occurs the
whole chunk is the prefix and the remainder is empty. -/
def scanPending : List Char → List Char × List Char × Bool
  | [] => ([], [], false)
  | c :: cs =>
    if c = '\n' then ([c], cs, true)
    else
      let out := scanPending cs
      (c :: out.1, out.2.1, out.2.2)

/-- `read_line` once the `BufReader`'s internal buffer is empty: pull chunks
from the stream until a newline, end-of-file, would-block or an error.
`total` counts the bytes already appended in this call. -/
def readLineEvents : List ReadEvent → List Char → Nat → LineOutcome
  | [], buf, total => ⟨.ok total, [], [], buf⟩
  | .data s :: evs, buf, total =>
    let out := scanPending s
    if out.2.2 then ⟨.ok (total + out.1.length), evs, out.2.1, buf ++ out.1⟩
    else readLineEvents evs (buf ++ out.1) (total + out.1.length)
  | .wouldBlock :: evs, buf, _total => ⟨.wouldBlock, evs, [], buf⟩
  | .ioError :: evs, buf, _total => ⟨.ioError, evs, [], buf⟩

/-- One `reader.read_line(buffer)` call: first consume the `BufReader`'s
pending bytes, then pull further events as needed. -/
def readLine (evs : List ReadEvent) (pending buf : List Char) (total : Nat) : LineOutcome :=
  let out := scanPending pending
  if out.2.2 then ⟨.ok (total + out.1.length), evs, out.2.1, buf ++ out.1⟩
  else readLineEvents evs (buf ++ out.1) (total + out.1.length)

/-- Outcome of one `non_blocking_line_reading` call: whether it returned
`Ok(())`, the stream state, the line buffer, and the full list of callback
invocations so far (each entry one argument the line callback received). -/
structure NblrOutcome where
  ok : Bool
  events : List ReadEvent
  pending : List Char
  buf : List Char
  calls : List (List Char)
deriving DecidableEq

/-- The loop of `non_blocking_line_reading` (lib.rs 199-220), with explicit
fuel: `Ok(0)` breaks, `Ok(n+1)` invokes the callback with the whole buffer
and clears it, `WouldBlock` breaks, a genuine error clears the buffer and
returns it.  The fuel is a bound on the number of `read_line` calls; the
wrapper below always supplies enough, so the fuel-0 branch is unreachable. -/
def nblrAux : Nat → List ReadEvent → List Char → List Char → List (List Char) → NblrOutcome
  | 0, evs, pending, buf, tr => ⟨true, evs, pending, buf, tr⟩
  | fuel + 1, evs, pending, buf, tr =>
    let out := readLine evs pending buf 0
    match out.res with
    | .ok 0 => ⟨true, out.events, out.pending, out.buf, tr⟩
    | .ok (_ + 1) => nblrAux fuel out.events out.pending [] (tr ++ [out.buf])
    | .wouldBlock => ⟨true, out.events, out.pending, out.buf, tr⟩
    | .ioError => ⟨false, out.events, out.pending, [], tr⟩

/-- `non_blocking_line_reading` (lib.rs 199-220).  Every iteration that
continues consumes at least one character of `pending ++ dataConcat evs`, so
this fuel suffices. -/
def non_blocking_line_reading (evs : List ReadEvent) (pending buf : List Char)
    (tr : List (List Char)) : NblrOutcome :=
  nblrAux ((pending ++ dataConcat evs).length + 1) evs pending buf tr

/-- Termination of the supervised child: exit code, or death by signal. -/
inductive ExitStatus
  | code (n : Nat)
  | signal (n : Nat)
deriving DecidableEq

/-- Exit detail carried by a failed operation. -/
inductive AptErr
  | exited (code : Nat)
  | signaled (sig : Nat)
deriving DecidableEq

/-- An operation's `io::Result<()>`. -/
inductive CmdResult
  | ok
  | err (e : AptErr)
deriving DecidableEq

/-- Modelled from the spec: `ExitStatusExt::as_result` comes from the
external exit_status_ext crate, not from this repository.  The spec, section
4.5: "zero exit code => Succeeded; non-zero or signal termination => Failed,
carrying the exit detail." -/
def asResult : ExitStatus → CmdResult
  | .code 0 => .ok
  | .code (n + 1) => .err (.exited (n + 1))
  | .signal s => .err (.signaled s)

/-- Outcome of a supervised run: the returned `io::Result<()>` and the full
list of line-callback invocations, in order. -/
structure SupOutcome where
  result : CmdResult
  trace : List (List Char)
deriving DecidableEq

/-- The polling loop of `apt_noninteractive_callback` (lib.rs 53-63).  Each
iteration sleeps, polls `try_wait`, and, only if the child has not exited,
drains available output; the value returned by `non_blocking_line_reading`
is discarded (`let _ = ...` in the source).  The first argument is the
number of polls on which `try_wait` still returns `None`; on the next poll
the child is observed exited with the given status and the function returns
`status.as_result()` at once. -/
def superviseLoop : Nat → ExitStatus → List ReadEvent → List Char → List Char →
    List (List Char) → SupOutcome
  | 0, status, _, _, _, tr => ⟨asResult status, tr⟩
  | n + 1, status, evs, pending, buf, tr =>
    let o := non_blocking_line_reading evs pending buf tr
    superviseLoop n status o.events o.pending o.buf o.calls

/-- A run of `apt_noninteractive_callback` over a stdout stream: the child is
observed exited after `exitAfter` polls, terminating with `status`. -/
def apt_noninteractive_callback (exitAfter : Nat) (status : ExitStatus)
    (evs : List ReadEvent) : SupOutcome :=
  superviseLoop exitAfter status evs [] [] []

/-- A child-process invocation: executable name, argument list, environment
overrides, in the order the builder methods add them. -/
structure Cmd where
  program : String
  args : List String
  envs : List (String × String)
deriving DecidableEq

/-- `Command::arg`. -/
def Cmd.arg (c : Cmd) (a : String) : Cmd := { c with args := c.args ++ [a] }

/-- `Command::args`. -/
def Cmd.addArgs (c : Cmd) (xs : List String) : Cmd := { c with args := c.args ++ xs }

/-- The command `apt_noninteractive` builds before the caller's closure runs:
`Command::new("apt-get").env("DEBIAN_FRONTEND", "noninteractive")
.args(&["-y", "--allow-downgrades"])` (lib.rs 26-31). -/
def aptGetBase : Cmd :=
  ⟨"apt-get", ["-y", "--allow-downgrades"], [("DEBIAN_FRONTEND", "noninteractive")]⟩

/-- The command construction of `apt_noninteractive` (lib.rs 26-34): the
caller's closure is applied to the base command. -/
def apt_noninteractive (f : Cmd → Cmd) : Cmd := f aptGetBase

/-- The command `apt_noninteractive_callback` builds (lib.rs 41-45): as the
base above, plus `.env("LANG", "C")`. -/
def aptGetCallbackBase : Cmd :=
  ⟨"apt-get", ["-y", "--allow-downgrades"],
    [("DEBIAN_FRONTEND", "noninteractive"), ("LANG", "C")]⟩

/-- The command construction of `apt_noninteractive_callback`. -/
def apt_noninteractive_callback_cmd (f : Cmd → Cmd) : Cmd := f aptGetCallbackBase

/-- Result of a lock-gated call: the guarded operation's value, or a timeout,
a constructor distinct from any value the operation can produce. -/
inductive WaitResult (α : Type)
  | timeout
  | completed (a : α)
deriving DecidableEq

/-- Outcome of `wait_for_apt_locks`: the result, the readiness notifications
in order (false while locked, true once free), and how many times the
guarded operation ran. -/
structure WaitOutcome (α : Type) where
  result : WaitResult α
  readiness : List Bool
  opCalls : Nat
deriving DecidableEq

/-- Modelled from the spec: apt_lock.rs (`wait_for_apt_locks`) is not under
src/.  Spec section 4.2: loop from attempts = 0: probe; if free, invoke
`readiness(true)` and run the operation once; if locked, invoke
`readiness(false)`, increment attempts, return Timeout once attempts reach
`max_attempts`, else sleep 16 ms and retry.  `probe i` tells whether the lock
is free on the i-th poll; the countdown `k` stands for
`max_attempts - attempts`. -/
def waitForLockGo {α : Type} (probe : Nat → Bool) (op : α) : Nat → Nat → WaitOutcome α
  | k, i =>
    if probe i then ⟨.completed op, [true], 1⟩
    else
      match k with
      | 0 => ⟨.timeout, [false], 0⟩
      | 1 => ⟨.timeout, [false], 0⟩
      | k' + 2 =>
        let w := waitForLockGo probe op (k' + 1) (i + 1)
        ⟨w.result, false :: w.readiness, w.opCalls⟩

/-- Modelled from the spec: entry point of the lock waiter (see
`waitForLockGo`).  The operation's value is the command it would execute. -/
def wait_for_apt_locks {α : Type} (maxAttempts : Nat) (probe : Nat → Bool)
    (op : α) : WaitOutcome α :=
  waitForLockGo probe op maxAttempts 0

/-- The commands a lock-gated operation actually executes: its command when
the lock was observed free, nothing on timeout. -/
def WaitOutcome.executed : WaitOutcome Cmd → List Cmd
  | ⟨.completed c, _, _⟩ => [c]
  | ⟨.timeout, _, _⟩ => []

/-- `apt-get ... autoremove` (lib.rs 67-69). -/
def apt_autoremove_cmd : Cmd := apt_noninteractive (fun cmd => cmd.arg "autoremove")

/-- `apt_autoremove`: gated behind `wait_for_apt_locks(3000, ...)`. -/
def apt_autoremove (probe : Nat → Bool) : WaitOutcome Cmd :=
  wait_for_apt_locks 3000 probe apt_autoremove_cmd

/-- `apt-cache subcommand package...` (lib.rs 72-79); `check_output` (misc.rs,
not under src/) runs `Command::new("apt-cache")` with the closure's
arguments. -/
def apt_cache_cmd (subcommand : String) (packages : List String) : Cmd :=
  ((Cmd.mk "apt-cache" [] []).arg subcommand).addArgs packages

/-- `apt_cache`: gated behind `wait_for_apt_locks(3000, ...)`. -/
def apt_cache (subcommand : String) (packages : List String)
    (probe : Nat → Bool) : WaitOutcome Cmd :=
  wait_for_apt_locks 3000 probe (apt_cache_cmd subcommand packages)

/-- `apt-get -y --allow-downgrades install packages...` (lib.rs 82-86). -/
def apt_install_cmd (packages : List String) : Cmd :=
  apt_noninteractive (fun cmd => (cmd.arg "install").addArgs packages)

/-- `apt_install`: gated behind `wait_for_apt_locks(3000, ...)`. -/
def apt_install (packages : List String) (probe : Nat → Bool) : WaitOutcome Cmd :=
  wait_for_apt_locks 3000 probe (apt_install_cmd packages)

/-- `apt-get ... install -f` (lib.rs 88-92). -/
def apt_install_fix_broken_cmd : Cmd :=
  apt_noninteractive (fun cmd => cmd.addArgs ["install", "-f"])

/-- `apt_install_fix_broken`: gated behind `wait_for_apt_locks(3000, ...)`. -/
def apt_install_fix_broken (probe : Nat → Bool) : WaitOutcome Cmd :=
  wait_for_apt_locks 3000 probe apt_install_fix_broken_cmd

/-- `apt-get ... purge packages...` (lib.rs 95-99). -/
def apt_purge_cmd (packages : List String) : Cmd :=
  apt_noninteractive (fun cmd => (cmd.arg "purge").addArgs packages)

/-- `apt_purge`: gated behind `wait_for_apt_locks(3000, ...)`. -/
def apt_purge (packages : List String) (probe : Nat → Bool) : WaitOutcome Cmd :=
  wait_for_apt_locks 3000 probe (apt_purge_cmd packages)

/-- `apt-get ... install --reinstall packages...` (lib.rs 102-106). -/
def apt_reinstall_cmd (packages : List String) : Cmd :=
  apt_noninteractive (fun cmd => ((cmd.arg "install").arg "--reinstall").addArgs packages)

/-- `apt_reinstall`: gated behind `wait_for_apt_locks(3000, ...)`. -/
def apt_reinstall (packages : List String) (probe : Nat → Bool) : WaitOutcome Cmd :=
  wait_for_apt_locks 3000 probe (apt_reinstall_cmd packages)

/-- `apt-get remove --autoremove packages...` (lib.rs 109-116). -/
def apt_remove_cmd (packages : List String) : Cmd :=
  apt_noninteractive (fun cmd => ((cmd.arg "remove").arg "--autoremove").addArgs packages)

/-- `apt_remove`: gated behind `wait_for_apt_locks(3000, ...)`. -/
def apt_remove (packages : List String) (probe : Nat → Bool) : WaitOutcome Cmd :=
  wait_for_apt_locks 3000 probe (apt_remove_cmd packages)

/-- `apt-get ... update` (lib.rs 119-121). -/
def apt_update_cmd : Cmd := apt_noninteractive (fun cmd => cmd.arg "update")

/-- `apt_update`: gated behind `wait_for_apt_locks(3000, ...)`. -/
def apt_update (probe : Nat → Bool) : WaitOutcome Cmd :=
  wait_for_apt_locks 3000 probe apt_update_cmd

/-- `apt-get ... --show-progress full-upgrade` (lib.rs 131-133), built
through `apt_noninteractive_callback`. -/
def apt_upgrade_cmd : Cmd :=
  apt_noninteractive_callback_cmd (fun cmd => cmd.addArgs ["--show-progress", "full-upgrade"])

/-- The lock gating of `apt_upgrade` (lib.rs 124-141):
`wait_for_apt_locks(3000, ...)` around the supervised command. -/
def apt_upgrade (probe : Nat → Bool) : WaitOutcome Cmd :=
  wait_for_apt_locks 3000 probe apt_upgrade_cmd

/-- `dpkg --configure -a` (lib.rs 144-152). -/
def dpkg_configure_all_cmd : Cmd := (Cmd.mk "dpkg" [] []).addArgs ["--configure", "-a"]

/-- `dpkg_configure_all`: gated behind `wait_for_apt_locks(3000, ...)`. -/
def dpkg_configure_all (probe : Nat → Bool) : WaitOutcome Cmd :=
  wait_for_apt_locks 3000 probe dpkg_configure_all_cmd

/-- `apt_hold` (lib.rs 154-156): runs `apt-mark hold package` directly —
the source contains no `wait_for_apt_locks` call here. -/
def apt_hold (package : String) : Cmd := (Cmd.mk "apt-mark" [] []).addArgs ["hold", package]

/-- `apt_unhold` (lib.rs 158-160): runs `apt-mark unhold package` directly. -/
def apt_unhold (package : String) : Cmd :=
  (Cmd.mk "apt-mark" [] []).addArgs ["unhold", package]

/-- The commands a call to `apt_hold` executes, as a function of the lock
environment: the source consults no lock, so the probe parameter is unused
and the command runs unconditionally. -/
def apt_hold_run (package : String) (_probe : Nat → Bool) : List Cmd := [apt_hold package]

/-- The commands a call to `apt_unhold` executes, as a function of the lock
environment (unused by the source, as for `apt_hold_run`). -/
def apt_unhold_run (package : String) (_probe : Nat → Bool) : List Cmd :=
  [apt_unhold package]

/-- What the claim says `apt_hold` does (spec, section 2: "caller requests an
operation -> LockWaiter gates it behind lock availability -> CommandSupervisor
executes it"): the hold command gated behind the lock wait.  Stated for
comparison with the source's `apt_hold`/`apt_hold_run`. -/
def apt_hold_gated (package : String) (probe : Nat → Bool) : WaitOutcome Cmd :=
  wait_for_apt_locks 3000 probe (apt_hold package)

/-- Modelled from the spec: the progress-event classification of
upgrade_event.rs (`AptUpgradeEvent`) is not under src/.  The spec's data
model (section 3) has percent-complete and waiting-on-lock variants among
others; only these two are needed by the claims. -/
inductive AptUpgradeEvent
  | percent (p : Nat)
  | waitingOnLock
deriving DecidableEq

/-- Leading decimal digits of a string and the remainder. -/
def takeDigits : List Char → List Char × List Char
  | [] => ([], [])
  | c :: cs =>
    if c.isDigit then
      let out := takeDigits cs
      (c :: out.1, out.2)
    else ([], c :: cs)

/-- Numeric value of a digit string. -/
def digitsVal (ds : List Char) : Nat :=
  List.foldl (fun a c => a * 10 + (c.toNat - 48)) 0 ds

/-- Drop one trailing newline, if present. -/
def stripNl (s : List Char) : List Char :=
  match s.getLast? with
  | some c => if c = '\n' then s.dropLast else s
  | none => s

/-- Modelled from the spec: the line decoder of upgrade_event.rs is not under
src/.  Spec section 4.4: "a line beginning with a percentage token ... =>
Percent-complete event"; "any line not matching a known grammar => no event".
A line `NN% ...` (after stripping the terminator) decodes to a percent
event; anything else to no event. -/
def parseUpgradeEvent (line : List Char) : Option AptUpgradeEvent :=
  let s := stripNl line
  match takeDigits s with
  | ([], _) => none
  | (ds, rest) =>
    match rest with
    | '%' :: _ => some (.percent (digitsVal ds))
    | _ => none

/-- The event stream `apt_upgrade` (lib.rs 124-141) delivers to its caller:
each line the supervised run hands to the callback is parsed, and only lines
that parse produce an event (`if let Ok(event) = line.parse() ...`). -/
def apt_upgrade_events (exitAfter : Nat) (status : ExitStatus)
    (evs : List ReadEvent) : List AptUpgradeEvent :=
  (apt_noninteractive_callback exitAfter status evs).trace.filterMap parseUpgradeEvent

/-- Rust `str::split(sep)`: splits at every separator, keeping empty pieces;
the empty string yields one empty piece. -/
def splitChar (sep : Char) : List Char → List (List Char)
  | [] => [[]]
  | c :: cs =>
    if c = sep then [] :: splitChar sep cs
    else
      match splitChar sep cs with
      | [] => [[c]]
      | f :: rest => (c :: f) :: rest

/-- Drop one trailing carriage return, if present (part of `str::lines`). -/
def stripCr (l : List Char) : List Char :=
  match l.getLast? with
  | some c => if c = '\r' then l.dropLast else l
  | none => l

/-- Rust `str::lines`: split on newlines, drop the final empty piece a
trailing newline would produce, strip one trailing carriage return from each
line. -/
def rustLines (s : List Char) : List (List Char) :=
  let parts := splitChar '\n' s
  let trimmed :=
    match parts.getLast? with
    | some [] => parts.dropLast
    | _ => parts
  trimmed.map stripCr

/-- Consuming the iterator `installed` returns either panics (an
`Option::unwrap` on `None`) or yields the listed packages. -/
inductive QueryOutcome
  | panicked
  | ok (packages : List (List Char))
deriving DecidableEq

/-- The `filter_map` closure of `installed` (lib.rs 179-187), per line:
`line.split(' ')` always yields a first field, so the first `unwrap` cannot
panic; the second `fields.next()` is `None` when the line holds no space, and
its `unwrap` panics (`none` here).  Otherwise `some none` when the status
field filters the line out, `some (some package)` when it is "installed". -/
def installedLine (line : List Char) : Option (Option (List Char)) :=
  match splitChar ' ' line with
  | [] => none
  | [_only] => none
  | package :: status :: _ =>
    some (if status = "installed".toList then some package else none)

/-- Consume the iterator line by line, propagating the first panic. -/
def installedGo : List (List Char) → QueryOutcome
  | [] => .ok []
  | l :: ls =>
    match installedLine l with
    | none => .panicked
    | some none => installedGo ls
    | some (some p) =>
      match installedGo ls with
      | .panicked => .panicked
      | .ok ps => .ok (p :: ps)

/-- `installed` (lib.rs 162-188), given the text dpkg-query produced:
the result of consuming the returned iterator. -/
def installed (buffer : List Char) : QueryOutcome :=
  installedGo (rustLines buffer)

/-- First chunk of the split example line (spec, section 8). -/
def chunk1 : List Char := "50% ins".toList

/-- Second chunk of the split example line, newline-terminated. -/
def chunk2 : List Char := "talling pkg\n".toList

/-- The assembled example line as the callback receives it: `read_line`
keeps the newline, and the source passes the whole buffer to the callback. -/
def fullLine : List Char := "50% installing pkg\n".toList

/-- The buffer discipline of one `non_blocking_line_reading` call, relating
the outcome `o` to the starting state: the call appends `new` to the callback
trace and consumes the characters `D` from the front of the unread input
(conservation equation); on `Ok` every consumed byte sits, exactly once and
in order, in the flushed lines followed by the final buffer; on a genuine
error the buffer is cleared (the bytes it held are dropped) before the error
is returned; every flushed line is non-empty and is either
newline-terminated or the final flush of a fully exhausted stream. -/
def NblrSpec (evs : List ReadEvent) (pending buf : List Char) (tr : List (List Char))
    (o : NblrOutcome) : Prop :=
  ∃ new D, o.calls = tr ++ new ∧
    pending ++ dataConcat evs = D ++ o.pending ++ dataConcat o.events ∧
    o.events <:+ evs ∧
    (o.ok = true → new.flatten ++ o.buf = buf ++ D) ∧
    (o.ok = false → o.buf = [] ∧ o.pending = [] ∧
      ∃ dropped, new.flatten ++ dropped = buf ++ D) ∧
    (∀ l ∈ new, l ≠ []) ∧
    (∀ l ∈ new, (∃ t, l = t ++ ['\n']) ∨
      (o.events = [] ∧ o.pending = [] ∧ o.buf = []))

/-! Helper lemmas. -/

theorem scan_chunk1 : scanPending chunk1 = (chunk1, [], false) := by decide

theorem scan_chunk2 : scanPending chunk2 = (chunk2, [], true) := by decide

theorem chunk1_chunk2 : chunk1 ++ chunk2 = fullLine := by decide

theorem chunk2_length : chunk2.length = 12 := by decide

theorem chunk1_length : chunk1.length = 7 := by decide

/-- The supervisor's returned result is always the classification of the
child's exit status, whatever the output stream contained. -/
theorem superviseLoop_result (n : Nat) (status : ExitStatus) (evs : List ReadEvent)
    (pending buf : List Char) (tr : List (List Char)) :
    (superviseLoop n status evs pending buf tr).result = asResult status := by
  induction n generalizing evs pending buf tr with
  | zero => rfl
  | succ n ih => exact ih _ _ _ _

/-- Under a probe that always reports the lock taken, the waiter times out
and never runs the operation. -/
theorem waitForLockGo_locked {α : Type} (op : α) :
    ∀ k i, (waitForLockGo (fun _ => false) op k i).result = WaitResult.timeout ∧
      (waitForLockGo (fun _ => false) op k i).opCalls = 0 := by
  intro k
  induction k with
  | zero => exact fun i => ⟨rfl, rfl⟩
  | succ k ih =>
    intro i
    cases k with
    | zero => exact ⟨rfl, rfl⟩
    | succ k' =>
      obtain ⟨h1, h2⟩ := ih (i + 1)
      exact ⟨h1, h2⟩

/-- A timed-out gated operation executes no command. -/
theorem executed_eq_nil_of_timeout (w : WaitOutcome Cmd) (h : w.result = .timeout) :
    w.executed = [] := by
  rcases w with ⟨r, rd, oc⟩
  cases r with
  | timeout => rfl
  | completed c => simp at h

/-- `read_line` with nothing pending goes straight to the stream. -/
theorem readLine_nil_pending (evs : List ReadEvent) (buf : List Char) (total : Nat) :
    readLine evs [] buf total = readLineEvents evs buf total := by
  simp [readLine, scanPending]

/-- A chunk without newline is appended whole and reading continues. -/
theorem readLineEvents_data_nonl (s : List Char) (evs : List ReadEvent) (buf : List Char)
    (total : Nat) (h : scanPending s = (s, [], false)) :
    readLineEvents (.data s :: evs) buf total =
      readLineEvents evs (buf ++ s) (total + s.length) := by
  simp only [readLineEvents, h]
  simp

/-- A chunk whose scan finds a newline ends the `read_line` call. -/
theorem readLineEvents_data_nl (s t rest : List Char) (evs : List ReadEvent)
    (buf : List Char) (total : Nat) (h : scanPending s = (t, rest, true)) :
    readLineEvents (.data s :: evs) buf total =
      ⟨.ok (total + t.length), evs, rest, buf ++ t⟩ := by
  simp only [readLineEvents, h]
  simp

/-- A would-block event ends the `read_line` call with `Err(WouldBlock)`. -/
theorem readLineEvents_wb (evs : List ReadEvent) (buf : List Char) (total : Nat) :
    readLineEvents (.wouldBlock :: evs) buf total = ⟨.wouldBlock, evs, [], buf⟩ := rfl

/-- An error event ends the `read_line` call with a genuine error. -/
theorem readLineEvents_err (evs : List ReadEvent) (buf : List Char) (total : Nat) :
    readLineEvents (.ioError :: evs) buf total = ⟨.ioError, evs, [], buf⟩ := rfl

/-- Loop step: a successful non-empty read invokes the callback with the
whole buffer, clears it, and continues. -/
theorem nblrAux_step_flush (fuel : Nat) (evs : List ReadEvent) (pending buf : List Char)
    (tr : List (List Char)) (m : Nat) (evs' : List ReadEvent) (pending' buf' : List Char)
    (hm : m ≠ 0) (h : readLine evs pending buf 0 = ⟨.ok m, evs', pending', buf'⟩) :
    nblrAux (fuel + 1) evs pending buf tr =
      nblrAux fuel evs' pending' [] (tr ++ [buf']) := by
  obtain ⟨m', rfl⟩ : ∃ m', m = m' + 1 := ⟨m - 1, by omega⟩
  simp only [nblrAux, h]

/-- Loop step: `Ok(0)` (end-of-file with nothing appended) breaks. -/
theorem nblrAux_step_eof (fuel : Nat) (evs : List ReadEvent) (pending buf : List Char)
    (tr : List (List Char)) (evs' : List ReadEvent) (pending' buf' : List Char)
    (h : readLine evs pending buf 0 = ⟨.ok 0, evs', pending', buf'⟩) :
    nblrAux (fuel + 1) evs pending buf tr = ⟨true, evs', pending', buf', tr⟩ := by
  simp only [nblrAux, h]

/-- Loop step: `Err(WouldBlock)` breaks, keeping the buffer. -/
theorem nblrAux_step_wb (fuel : Nat) (evs : List ReadEvent) (pending buf : List Char)
    (tr : List (List Char)) (evs' : List ReadEvent) (pending' buf' : List Char)
    (h : readLine evs pending buf 0 = ⟨.wouldBlock, evs', pending', buf'⟩) :
    nblrAux (fuel + 1) evs pending buf tr = ⟨true, evs', pending', buf', tr⟩ := by
  simp only [nblrAux, h]

/-- Loop step: a genuine error clears the buffer and returns the error. -/
theorem nblrAux_step_err (fuel : Nat) (evs : List ReadEvent) (pending buf : List Char)
    (tr : List (List Char)) (evs' : List ReadEvent) (pending' buf' : List Char)
    (h : readLine evs pending buf 0 = ⟨.ioError, evs', pending', buf'⟩) :
    nblrAux (fuel + 1) evs pending buf tr = ⟨false, evs', pending', [], tr⟩ := by
  simp only [nblrAux, h]

/-- One poll of the supervisor loop. -/
theorem superviseLoop_succ (n : Nat) (status : ExitStatus) (evs : List ReadEvent)
    (pending buf : List Char) (tr : List (List Char)) :
    superviseLoop (n + 1) status evs pending buf tr =
      superviseLoop n status (non_blocking_line_reading evs pending buf tr).events
        (non_blocking_line_reading evs pending buf tr).pending
        (non_blocking_line_reading evs pending buf tr).buf
        (non_blocking_line_reading evs pending buf tr).calls := rfl

/-- Draining an exhausted stream changes nothing. -/
theorem nblr_nil (buf : List Char) (tr : List (List Char)) :
    non_blocking_line_reading [] [] buf tr = ⟨true, [], [], buf, tr⟩ := by
  have h : readLine [] [] buf 0 = ⟨.ok 0, [], [], buf⟩ := by
    rw [readLine_nil_pending]; rfl
  exact nblrAux_step_eof _ _ _ _ _ _ _ _ h

/-- A would-block event at the head of the stream ends the drain call,
consuming only that event. -/
theorem nblr_wouldBlock (evs : List ReadEvent) (buf : List Char) (tr : List (List Char)) :
    non_blocking_line_reading (.wouldBlock :: evs) [] buf tr = ⟨true, evs, [], buf, tr⟩ := by
  have h : readLine (.wouldBlock :: evs) [] buf 0 = ⟨.wouldBlock, evs, [], buf⟩ := by
    rw [readLine_nil_pending]; rfl
  exact nblrAux_step_wb _ _ _ _ _ _ _ _ h

/-- Supervisor polls on an exhausted stream only wait for the exit. -/
theorem superviseLoop_nil (n : Nat) (status : ExitStatus) (buf : List Char)
    (tr : List (List Char)) :
    superviseLoop n status [] [] buf tr = ⟨asResult status, tr⟩ := by
  induction n with
  | zero => rfl
  | succ n ih => rw [superviseLoop_succ, nblr_nil]; exact ih

/-- A poll over a leading would-block event just consumes it. -/
theorem superviseLoop_wouldBlock (n : Nat) (status : ExitStatus) (evs : List ReadEvent)
    (buf : List Char) (tr : List (List Char)) :
    superviseLoop (n + 1) status (.wouldBlock :: evs) [] buf tr =
      superviseLoop n status evs [] buf tr := by
  rw [superviseLoop_succ, nblr_wouldBlock]

/-- Polls strip any run of leading would-block events one per poll. -/
theorem superviseLoop_wb_strip (k : Nat) :
    ∀ (n : Nat) (status : ExitStatus) (evs : List ReadEvent) (buf : List Char)
      (tr : List (List Char)),
      superviseLoop (k + n) status (List.replicate k .wouldBlock ++ evs) [] buf tr =
        superviseLoop n status evs [] buf tr := by
  induction k with
  | zero => intro n status evs buf tr; simp
  | succ k ih =>
    intro n status evs buf tr
    have hkn : k + 1 + n = (k + n) + 1 := by omega
    rw [hkn, List.replicate_succ, List.cons_append, superviseLoop_wouldBlock, ih]

/-- Drain call over the first chunk then a would-block: the fragment stays
buffered, no callback fires. -/
theorem nblr_chunk1_wb (evs : List ReadEvent) (buf : List Char) (tr : List (List Char)) :
    non_blocking_line_reading (.data chunk1 :: .wouldBlock :: evs) [] buf tr =
      ⟨true, evs, [], buf ++ chunk1, tr⟩ := by
  have h : readLine (.data chunk1 :: .wouldBlock :: evs) [] buf 0 =
      ⟨.wouldBlock, evs, [], buf ++ chunk1⟩ := by
    rw [readLine_nil_pending, readLineEvents_data_nonl _ _ _ _ scan_chunk1, readLineEvents_wb]
  exact nblrAux_step_wb _ _ _ _ _ _ _ _ h

/-- Drain call over the newline-terminated second chunk then a would-block:
the whole assembled buffer is flushed to the callback once. -/
theorem nblr_chunk2_wb (evs : List ReadEvent) (buf : List Char) (tr : List (List Char)) :
    non_blocking_line_reading (.data chunk2 :: .wouldBlock :: evs) [] buf tr =
      ⟨true, evs, [], [], tr ++ [buf ++ chunk2]⟩ := by
  have h : readLine (.data chunk2 :: .wouldBlock :: evs) [] buf 0 =
      ⟨.ok (0 + chunk2.length), .wouldBlock :: evs, [], buf ++ chunk2⟩ := by
    rw [readLine_nil_pending, readLineEvents_data_nl _ _ _ _ _ _ scan_chunk2]
  have hfuel : ([] ++ dataConcat (.data chunk2 :: .wouldBlock :: evs)).length + 1 =
      ((dataConcat evs).length + 11 + 1) + 1 := by
    simp [dataConcat, chunk2_length]
    omega
  show nblrAux _ _ _ _ _ = _
  rw [hfuel, nblrAux_step_flush _ _ _ _ _ _ _ _ _ (by simp [chunk2_length]) h]
  exact nblrAux_step_wb _ _ _ _ _ _ _ _ (by rw [readLine_nil_pending, readLineEvents_wb])

/-- Drain call over the second chunk at the end of the stream. -/
theorem nblr_chunk2_nil (buf : List Char) (tr : List (List Char)) :
    non_blocking_line_reading [.data chunk2] [] buf tr =
      ⟨true, [], [], [], tr ++ [buf ++ chunk2]⟩ := by
  have h : readLine [.data chunk2] [] buf 0 =
      ⟨.ok (0 + chunk2.length), [], [], buf ++ chunk2⟩ := by
    rw [readLine_nil_pending, readLineEvents_data_nl _ _ _ _ _ _ scan_chunk2]
  have hfuel : ([] ++ dataConcat [ReadEvent.data chunk2]).length + 1 = (11 + 1) + 1 := by
    simp [dataConcat, chunk2_length]
  show nblrAux _ _ _ _ _ = _
  rw [hfuel, nblrAux_step_flush _ _ _ _ _ _ _ _ _ (by simp [chunk2_length]) h]
  exact nblrAux_step_eof _ _ _ _ _ _ _ _ (by rw [readLine_nil_pending]; rfl)

/-- Both chunks available in one drain call, then a would-block: one
`read_line` call assembles and flushes the full line. -/
theorem nblr_c1c2_wb (evs : List ReadEvent) (buf : List Char) (tr : List (List Char)) :
    non_blocking_line_reading (.data chunk1 :: .data chunk2 :: .wouldBlock :: evs) [] buf tr =
      ⟨true, evs, [], [], tr ++ [buf ++ chunk1 ++ chunk2]⟩ := by
  have h : readLine (.data chunk1 :: .data chunk2 :: .wouldBlock :: evs) [] buf 0 =
      ⟨.ok (0 + chunk1.length + chunk2.length), .wouldBlock :: evs, [],
        buf ++ chunk1 ++ chunk2⟩ := by
    rw [readLine_nil_pending, readLineEvents_data_nonl _ _ _ _ scan_chunk1,
      readLineEvents_data_nl _ _ _ _ _ _ scan_chunk2]
  have hfuel :
      ([] ++ dataConcat (.data chunk1 :: .data chunk2 :: .wouldBlock :: evs)).length + 1 =
      ((dataConcat evs).length + 18 + 1) + 1 := by
    simp [dataConcat, chunk2_length, chunk1_length]
    omega
  show nblrAux _ _ _ _ _ = _
  rw [hfuel, nblrAux_step_flush _ _ _ _ _ _ _ _ _
    (by simp [chunk2_length, chunk1_length]) h]
  exact nblrAux_step_wb _ _ _ _ _ _ _ _ (by rw [readLine_nil_pending, readLineEvents_wb])

/-- Both chunks at the end of the stream: assembled and flushed, then EOF. -/
theorem nblr_c1c2_nil (buf : List Char) (tr : List (List Char)) :
    non_blocking_line_reading [.data chunk1, .data chunk2] [] buf tr =
      ⟨true, [], [], [], tr ++ [buf ++ chunk1 ++ chunk2]⟩ := by
  have h : readLine [.data chunk1, .data chunk2] [] buf 0 =
      ⟨.ok (0 + chunk1.length + chunk2.length), [], [], buf ++ chunk1 ++ chunk2⟩ := by
    rw [readLine_nil_pending, readLineEvents_data_nonl _ _ _ _ scan_chunk1,
      readLineEvents_data_nl _ _ _ _ _ _ scan_chunk2]
  have hfuel : ([] ++ dataConcat [ReadEvent.data chunk1, ReadEvent.data chunk2]).length + 1 =
      (18 + 1) + 1 := by
    simp [dataConcat, chunk2_length, chunk1_length]
  show nblrAux _ _ _ _ _ = _
  rw [hfuel, nblrAux_step_flush _ _ _ _ _ _ _ _ _
    (by simp [chunk2_length, chunk1_length]) h]
  exact nblrAux_step_eof _ _ _ _ _ _ _ _ (by rw [readLine_nil_pending]; rfl)

/-- Poll consuming the first chunk and a would-block. -/
theorem superviseLoop_c1_wb (n : Nat) (status : ExitStatus) (evs : List ReadEvent)
    (buf : List Char) (tr : List (List Char)) :
    superviseLoop (n + 1) status (.data chunk1 :: .wouldBlock :: evs) [] buf tr =
      superviseLoop n status evs [] (buf ++ chunk1) tr := by
  rw [superviseLoop_succ, nblr_chunk1_wb]

/-- Poll consuming the second chunk and a would-block, flushing the line. -/
theorem superviseLoop_c2_wb (n : Nat) (status : ExitStatus) (evs : List ReadEvent)
    (buf : List Char) (tr : List (List Char)) :
    superviseLoop (n + 1) status (.data chunk2 :: .wouldBlock :: evs) [] buf tr =
      superviseLoop n status evs [] [] (tr ++ [buf ++ chunk2]) := by
  rw [superviseLoop_succ, nblr_chunk2_wb]

/-- Poll consuming the second chunk at the end of the stream. -/
theorem superviseLoop_c2_nil (n : Nat) (status : ExitStatus) (buf : List Char)
    (tr : List (List Char)) :
    superviseLoop (n + 1) status [.data chunk2] [] buf tr =
      superviseLoop n status [] [] [] (tr ++ [buf ++ chunk2]) := by
  rw [superviseLoop_succ, nblr_chunk2_nil]

/-- Poll consuming both chunks and a would-block. -/
theorem superviseLoop_c1c2_wb (n : Nat) (status : ExitStatus) (evs : List ReadEvent)
    (buf : List Char) (tr : List (List Char)) :
    superviseLoop (n + 1) status (.data chunk1 :: .data chunk2 :: .wouldBlock :: evs)
        [] buf tr =
      superviseLoop n status evs [] [] (tr ++ [buf ++ chunk1 ++ chunk2]) := by
  rw [superviseLoop_succ, nblr_c1c2_wb]

/-- Poll consuming both chunks at the end of the stream. -/
theorem superviseLoop_c1c2_nil (n : Nat) (status : ExitStatus) (buf : List Char)
    (tr : List (List Char)) :
    superviseLoop (n + 1) status [.data chunk1, .data chunk2] [] buf tr =
      superviseLoop n status [] [] [] (tr ++ [buf ++ chunk1 ++ chunk2]) := by
  rw [superviseLoop_succ, nblr_c1c2_nil]

/-- Polls over a trailing run of would-block events, then exhaustion. -/
theorem superviseLoop_wb_tail (k n : Nat) (status : ExitStatus) (buf : List Char)
    (tr : List (List Char)) :
    superviseLoop (k + n) status (List.replicate k .wouldBlock) [] buf tr =
      superviseLoop n status [] [] buf tr := by
  have h := superviseLoop_wb_strip k n status [] buf tr
  rwa [List.append_nil] at h

/-- `asResult` classifies success exactly at exit code zero. -/
theorem asResult_ok_iff : ∀ status : ExitStatus, asResult status = .ok ↔ status = .code 0 := by
  intro status
  cases status with
  | code n =>
    cases n with
    | zero => simp [asResult]
    | succ n => simp [asResult]
  | signal s => simp [asResult]

/-- The scanned prefix and remainder reassemble the chunk. -/
theorem scanPending_append (s : List Char) :
    (scanPending s).1 ++ (scanPending s).2.1 = s := by
  induction s with
  | nil => rfl
  | cons c cs ih =>
    by_cases hc : c = '\n'
    · simp [scanPending, hc]
    · simp [scanPending, hc, ih]

/-- A successful scan's prefix ends with the newline. -/
theorem scanPending_found (s : List Char) :
    (scanPending s).2.2 = true → ∃ t, (scanPending s).1 = t ++ ['\n'] := by
  induction s with
  | nil => intro h; simp [scanPending] at h
  | cons c cs ih =>
    by_cases hc : c = '\n'
    · intro _
      refine ⟨[], ?_⟩
      simp [scanPending, hc]
    · intro h
      simp only [scanPending, hc, if_false, if_neg hc] at h ⊢
      obtain ⟨t, ht⟩ := ih h
      exact ⟨c :: t, by simp [ht]⟩

/-- A failed scan consumed the whole chunk. -/
theorem scanPending_not_found (s : List Char) :
    (scanPending s).2.2 = false → (scanPending s).2.1 = [] := by
  induction s with
  | nil => intro _; rfl
  | cons c cs ih =>
    by_cases hc : c = '\n'
    · intro h; simp [scanPending, hc] at h
    · intro h
      simp only [scanPending, hc, if_neg hc] at h ⊢
      exact ih h

/-- What one pass of `read_line` over the stream guarantees: the bytes `D`
it consumed are appended to the buffer; consumed input reassembles
(conservation); the remaining events are a suffix; an `Ok` result counts
exactly the appended bytes and ends either at a newline or at a fully
exhausted stream; after would-block or error nothing stays pending. -/
theorem readLineEvents_spec (evs : List ReadEvent) :
    ∀ (buf : List Char) (total : Nat) (res : ReadResult) (evs' : List ReadEvent)
      (pending' buf' : List Char),
      readLineEvents evs buf total = ⟨res, evs', pending', buf'⟩ →
      ∃ D, buf' = buf ++ D ∧
        dataConcat evs = D ++ pending' ++ dataConcat evs' ∧
        evs' <:+ evs ∧
        (∀ n, res = .ok n → n = total + D.length ∧
          ((∃ t, D = t ++ ['\n']) ∨ (evs' = [] ∧ pending' = []))) ∧
        (res = .wouldBlock → pending' = []) ∧
        (res = .ioError → pending' = []) := by
  induction evs with
  | nil =>
    intro buf total res evs' pending' buf' h
    simp only [readLineEvents] at h
    injection h with h1 h2 h3 h4
    subst h1; subst h2; subst h3; subst h4
    refine ⟨[], by simp, by simp [dataConcat], by simp, ?_, (by intro hw; cases hw),
      (by intro hw; cases hw)⟩
    intro n hn
    injection hn with hn
    exact ⟨by simp [hn.symm], Or.inr ⟨rfl, rfl⟩⟩
  | cons e evs ih =>
    intro buf total res evs' pending' buf' h
    cases e with
    | data s =>
      rcases hfound : (scanPending s).2.2 with _ | _
      · -- no newline in this chunk: the whole chunk is appended, reading goes on
        have hrest : (scanPending s).2.1 = [] := scanPending_not_found s hfound
        have hs : (scanPending s).1 = s := by
          have := scanPending_append s
          rwa [hrest, List.append_nil] at this
        simp only [readLineEvents, hfound, Bool.false_eq_true, if_false, hs] at h
        obtain ⟨D, hbuf, hcons, hsuf, hok, hwb, herr⟩ := ih _ _ _ _ _ _ h
        refine ⟨s ++ D, by simp [hbuf], ?_, hsuf.trans (List.suffix_cons _ _), ?_, hwb, herr⟩
        · simp only [dataConcat, hcons]
          simp [List.append_assoc]
        · intro n hn
          obtain ⟨hlen, hdisj⟩ := hok n hn
          refine ⟨by simp [hlen]; omega, ?_⟩
          rcases hdisj with ⟨t, ht⟩ | hend
          · exact Or.inl ⟨s ++ t, by simp [ht]⟩
          · exact Or.inr hend
      · -- newline found: the call ends here
        obtain ⟨t, rest, hsc⟩ : ∃ t rest, scanPending s = (t, rest, true) :=
          ⟨(scanPending s).1, (scanPending s).2.1, by
            rcases hv : scanPending s with ⟨a, b, c⟩
            rw [hv] at hfound
            simp at hfound
            simp [hv, hfound]⟩
        simp only [readLineEvents, hsc, if_true] at h
        injection h with h1 h2 h3 h4
        subst h2; subst h3; subst h4
        have hts : t ++ rest = s := by
          have := scanPending_append s
          rwa [hsc] at this
        refine ⟨t, rfl, ?_, List.suffix_cons _ _, ?_, ?_, ?_⟩
        · simp only [dataConcat, ← hts, List.append_assoc]
        · intro n hn
          rw [← h1] at hn
          injection hn with hn
          refine ⟨hn.symm, Or.inl ?_⟩
          have := scanPending_found s (by simp [hsc])
          rwa [hsc] at this
        · intro hw; rw [← h1] at hw; cases hw
        · intro hw; rw [← h1] at hw; cases hw
    | wouldBlock =>
      simp only [readLineEvents] at h
      injection h with h1 h2 h3 h4
      subst h1; subst h2; subst h3; subst h4
      refine ⟨[], by simp, by simp [dataConcat], List.suffix_cons _ _, ?_, (fun _ => rfl),
        (by intro hw; cases hw)⟩
      intro n hn; cases hn
    | ioError =>
      simp only [readLineEvents] at h
      injection h with h1 h2 h3 h4
      subst h1; subst h2; subst h3; subst h4
      refine ⟨[], by simp, by simp [dataConcat], List.suffix_cons _ _, ?_,
        (by intro hw; cases hw), (fun _ => rfl)⟩
      intro n hn; cases hn

/-- `readLine_spec`: as `readLineEvents_spec`, with the pending bytes of the
`BufReader` in front of the stream. -/
theorem readLine_spec (evs : List ReadEvent) (pending buf : List Char) (total : Nat)
    (res : ReadResult) (evs' : List ReadEvent) (pending' buf' : List Char)
    (h : readLine evs pending buf total = ⟨res, evs', pending', buf'⟩) :
    ∃ D, buf' = buf ++ D ∧
      pending ++ dataConcat evs = D ++ pending' ++ dataConcat evs' ∧
      evs' <:+ evs ∧
      (∀ n, res = .ok n → n = total + D.length ∧
        ((∃ t, D = t ++ ['\n']) ∨ (evs' = [] ∧ pending' = []))) ∧
      (res = .wouldBlock → pending' = []) ∧
      (res = .ioError → pending' = []) := by
  rcases hfound : (scanPending pending).2.2 with _ | _
  · have hrest : (scanPending pending).2.1 = [] := scanPending_not_found pending hfound
    have hs : (scanPending pending).1 = pending := by
      have := scanPending_append pending
      rwa [hrest, List.append_nil] at this
    simp only [readLine, hfound, Bool.false_eq_true, if_false, hs] at h
    obtain ⟨D, hbuf, hcons, hsuf, hok, hwb, herr⟩ := readLineEvents_spec evs _ _ _ _ _ _ h
    refine ⟨pending ++ D, by simp [hbuf], by simp [hcons, List.append_assoc], hsuf, ?_, hwb, herr⟩
    intro n hn
    obtain ⟨hlen, hdisj⟩ := hok n hn
    refine ⟨by simp [hlen]; omega, ?_⟩
    rcases hdisj with ⟨t, ht⟩ | hend
    · exact Or.inl ⟨pending ++ t, by simp [ht]⟩
    · exact Or.inr hend
  · obtain ⟨t, rest, hsc⟩ : ∃ t rest, scanPending pending = (t, rest, true) :=
      ⟨(scanPending pending).1, (scanPending pending).2.1, by
        rcases hv : scanPending pending with ⟨a, b, c⟩
        rw [hv] at hfound
        simp at hfound
        simp [hv, hfound]⟩
    simp only [readLine, hsc, if_true] at h
    injection h with h1 h2 h3 h4
    subst h2; subst h3; subst h4
    have hts : t ++ rest = pending := by
      have := scanPending_append pending
      rwa [hsc] at this
    refine ⟨t, rfl, by simp only [← hts, List.append_assoc], List.suffix_refl _, ?_, ?_, ?_⟩
    · intro n hn
      rw [← h1] at hn
      injection hn with hn
      refine ⟨hn.symm, Or.inl ?_⟩
      have := scanPending_found pending (by simp [hsc])
      rwa [hsc] at this
    · intro hw; rw [← h1] at hw; cases hw
    · intro hw; rw [← h1] at hw; cases hw

/-- Soundness of the reading loop against `NblrSpec`, given fuel above the
number of unread characters (every continuing iteration consumes at least
one). -/
theorem nblrAux_sound :
    ∀ (fuel : Nat) (evs : List ReadEvent) (pending buf : List Char) (tr : List (List Char)),
      (pending ++ dataConcat evs).length < fuel →
      NblrSpec evs pending buf tr (nblrAux fuel evs pending buf tr) := by
  intro fuel
  induction fuel with
  | zero => intro evs pending buf tr h; exact absurd h (Nat.not_lt_zero _)
  | succ fuel ih =>
    intro evs pending buf tr hfuel
    rcases hrl : readLine evs pending buf 0 with ⟨res, evs', pending', buf'⟩
    obtain ⟨D, hbuf, hcons, hsuf, hok, hwb, herr⟩ := readLine_spec _ _ _ _ _ _ _ _ hrl
    cases res with
    | ok n =>
      cases n with
      | zero =>
        rw [nblrAux_step_eof fuel _ _ _ _ _ _ _ hrl]
        obtain ⟨hlen, _⟩ := hok 0 rfl
        have hD : D = [] := List.length_eq_zero.mp (by omega)
        subst hD
        unfold NblrSpec
        refine ⟨[], [], (by simp), hcons, hsuf, (fun _ => by simp [hbuf]),
          (by intro hc; simp at hc), (by intro l hl; simp at hl),
          (by intro l hl; simp at hl)⟩
      | succ n =>
        rw [nblrAux_step_flush fuel _ _ _ _ _ _ _ _ (Nat.succ_ne_zero n) hrl]
        obtain ⟨hlen, hdisj⟩ := hok (n + 1) rfl
        have hmeas : (pending' ++ dataConcat evs').length < fuel := by
          have hL := congrArg List.length hcons
          simp only [List.length_append] at hL hfuel ⊢
          omega
        have hspec₂ := ih evs' pending' [] (tr ++ [buf']) hmeas
        unfold NblrSpec at hspec₂ ⊢
        obtain ⟨new₂, D₂, hc₂, hcons₂, hsuf₂, hok₂, herr₂, hne₂, hnl₂⟩ := hspec₂
        have hDne : D ≠ [] := by
          intro hD0
          rw [hD0] at hlen
          simp at hlen
        refine ⟨buf' :: new₂, D ++ D₂, ?_, ?_, hsuf₂.trans hsuf, ?_, ?_, ?_, ?_⟩
        · rw [hc₂]; simp
        · rw [hcons, List.append_assoc, hcons₂]
          simp [List.append_assoc]
        · intro h
          rw [List.flatten_cons, List.append_assoc, hok₂ h, hbuf]
          simp [List.append_assoc]
        · intro h
          obtain ⟨hb, hp, d, hd⟩ := herr₂ h
          refine ⟨hb, hp, d, ?_⟩
          rw [List.flatten_cons, List.append_assoc, hd, hbuf]
          simp [List.append_assoc]
        · intro l hl
          rcases List.mem_cons.mp hl with rfl | hl₂
          · rw [hbuf]
            intro hnil
            exact hDne (List.append_eq_nil.mp hnil).2
          · exact hne₂ l hl₂
        · have hO : (∃ t, buf' = t ++ ['\n']) ∨
              ((nblrAux fuel evs' pending' [] (tr ++ [buf'])).events = [] ∧
                (nblrAux fuel evs' pending' [] (tr ++ [buf'])).pending = [] ∧
                (nblrAux fuel evs' pending' [] (tr ++ [buf'])).buf = []) := by
            rcases hdisj with ⟨t, ht⟩ | ⟨hev, hpe⟩
            · exact Or.inl ⟨buf ++ t, by rw [hbuf, ht, List.append_assoc]⟩
            · subst hev; subst hpe
              have h0 : D₂ ++ (nblrAux fuel [] [] [] (tr ++ [buf'])).pending ++
                  dataConcat (nblrAux fuel [] [] [] (tr ++ [buf'])).events = [] := by
                simpa [dataConcat] using hcons₂.symm
              have h01 := List.append_eq_nil.mp h0
              have h02 := List.append_eq_nil.mp h01.1
              have hOev : (nblrAux fuel [] [] [] (tr ++ [buf'])).events = [] :=
                List.suffix_nil.mp hsuf₂
              refine Or.inr ⟨hOev, h02.2, ?_⟩
              rcases hOok : (nblrAux fuel [] [] [] (tr ++ [buf'])).ok with _ | _
              · exact (herr₂ hOok).1
              · have hfl := hok₂ hOok
                rw [h02.1] at hfl
                simp only [List.nil_append] at hfl
                exact (List.append_eq_nil.mp hfl).2
          intro l hl
          rcases List.mem_cons.mp hl with rfl | hl₂
          · exact hO
          · exact hnl₂ l hl₂
    | wouldBlock =>
      rw [nblrAux_step_wb fuel _ _ _ _ _ _ _ hrl]
      unfold NblrSpec
      refine ⟨[], D, (by simp), hcons, hsuf, (fun _ => by simp [hbuf]),
        (by intro hc; simp at hc), (by intro l hl; simp at hl),
        (by intro l hl; simp at hl)⟩
    | ioError =>
      rw [nblrAux_step_err fuel _ _ _ _ _ _ _ hrl]
      unfold NblrSpec
      refine ⟨[], D, (by simp), hcons, hsuf, (by intro hc; simp at hc),
        (fun _ => ⟨rfl, herr rfl, buf', by simp [hbuf]⟩),
        (by intro l hl; simp at hl), (by intro l hl; simp at hl)⟩

/-! Claims. -/

/-- Claim C1, counterexample.  The claim says that when the child is observed
exited, `apt_noninteractive_callback` performs a final drain of remaining
buffered output (invoking the callback for each complete line still pending)
before returning.  Here the child is observed exited on the very first poll
while a complete line "done\n" is available on its stdout: the run returns
`Ok` with an empty callback trace — the pending line is never delivered, so
no final drain happens. -/
theorem C1_counterexample :
    apt_noninteractive_callback 0 (.code 0) [.data ("done\n".toList)] = ⟨.ok, []⟩ ∧
    ([] : List (List Char)) ≠ ["done\n".toList] := ⟨by decide, by decide⟩

/-- Claim C1, amended.  When `try_wait` reports the child exited, the loop
returns `status.as_result()` immediately: the callback trace is exactly
whatever earlier polls produced, and no further drain of buffered or still
unread output takes place (the source returns straight out of the match on
`Some(status)`). -/
theorem C1_amended :
    ∀ (status : ExitStatus) (evs : List ReadEvent) (pending buf : List Char)
      (tr : List (List Char)),
      superviseLoop 0 status evs pending buf tr = ⟨asResult status, tr⟩ :=
  fun _ _ _ _ _ => rfl

/-- Claim C2, counterexample.  The claim says a genuine I/O error while
reading aborts the supervisor loop of `apt_noninteractive_callback` and is
propagated to the caller.  Here the stream raises a genuine error on the
first poll (`non_blocking_line_reading` does return it), yet the supervisor
run returns `Ok`: the source discards the reader's result
(`let _ = non_blocking_line_reading(...)`) and keeps polling. -/
theorem C2_counterexample :
    apt_noninteractive_callback 2 (.code 0) [.ioError] = ⟨.ok, []⟩ ∧
    (non_blocking_line_reading [.ioError] [] [] []).ok = false :=
  ⟨by decide, by decide⟩

/-- Claim C2, amended.  A genuine I/O error aborts only the inner
`non_blocking_line_reading` call, which clears the buffer and returns the
error; the supervisor loop of `apt_noninteractive_callback` discards that
error and continues polling, so its result is always determined by the
child's exit status alone and no read error reaches the caller. -/
theorem C2_amended :
    ∀ (evs : List ReadEvent) (buf : List Char) (tr : List (List Char)) (n : Nat)
      (status : ExitStatus) (evs2 : List ReadEvent) (pending2 buf2 : List Char)
      (tr2 : List (List Char)),
      non_blocking_line_reading (.ioError :: evs) [] buf tr = ⟨false, evs, [], [], tr⟩ ∧
      (superviseLoop n status evs2 pending2 buf2 tr2).result = asResult status := by
  intro evs buf tr n status evs2 pending2 buf2 tr2
  refine ⟨?_, superviseLoop_result n status evs2 pending2 buf2 tr2⟩
  exact nblrAux_step_err _ _ _ _ _ _ _ _ (by rw [readLine_nil_pending, readLineEvents_err])

/-- Claim C3, counterexample.  The claim says the callback is invoked with
the assembled line "50% installing pkg".  In the run below the two chunks
"50% ins" and "talling pkg\n" arrive across two non-blocking polls; the
callback is invoked exactly once, but with the buffer as `read_line` built
it — "50% installing pkg\n", newline included — not with the string the
claim names. -/
theorem C3_counterexample :
    (apt_noninteractive_callback 2 (.code 0)
        [.data ("50% ins".toList), .wouldBlock, .data ("talling pkg\n".toList)]).trace =
      ["50% installing pkg\n".toList] ∧
    (apt_noninteractive_callback 2 (.code 0)
        [.data ("50% ins".toList), .wouldBlock, .data ("talling pkg\n".toList)]).trace ≠
      ["50% installing pkg".toList] := ⟨by decide, by decide⟩

/-- Claim C3, amended.  For every interleaving of would-block reads around
the two chunks "50% ins" and "talling pkg\n" (k1 before the first chunk, k2
between the chunks, k3 after), a supervised run with enough polls invokes
the line callback exactly once, with the fully assembled newline-terminated
line "50% installing pkg\n", and never with a partial fragment. -/
theorem C3_amended :
    ∀ (k1 k2 k3 : Nat) (status : ExitStatus),
      apt_noninteractive_callback (k1 + k2 + k3 + 2) status
          (List.replicate k1 .wouldBlock ++ .data chunk1 ::
            (List.replicate k2 .wouldBlock ++ .data chunk2 :: List.replicate k3 .wouldBlock)) =
        ⟨asResult status, [fullLine]⟩ := by
  intro k1 k2 k3 status
  show superviseLoop _ _ _ _ _ _ = _
  have h1 : k1 + k2 + k3 + 2 = k1 + (k2 + k3 + 2) := by omega
  rw [h1, superviseLoop_wb_strip]
  cases k2 with
  | zero =>
    simp only [List.replicate_zero, List.nil_append]
    cases k3 with
    | zero =>
      simp only [List.replicate_zero]
      have h2 : 0 + 0 + 2 = 1 + 1 := by omega
      rw [h2, superviseLoop_c1c2_nil, superviseLoop_nil]
      simp [chunk1_chunk2]
    | succ j =>
      have h2 : 0 + (j + 1) + 2 = (j + 2) + 1 := by omega
      rw [h2, List.replicate_succ, superviseLoop_c1c2_wb, superviseLoop_wb_tail j 2,
        superviseLoop_nil]
      simp [chunk1_chunk2]
  | succ i =>
    have h2 : (i + 1) + k3 + 2 = (i + (k3 + 2)) + 1 := by omega
    rw [h2, List.replicate_succ, List.cons_append, superviseLoop_c1_wb,
      superviseLoop_wb_strip]
    cases k3 with
    | zero =>
      simp only [List.replicate_zero]
      have h3 : 0 + 2 = 1 + 1 := by omega
      rw [h3, superviseLoop_c2_nil, superviseLoop_nil]
      simp [chunk1_chunk2]
    | succ j =>
      have h3 : (j + 1) + 2 = (j + 2) + 1 := by omega
      rw [h3, List.replicate_succ, superviseLoop_c2_wb, superviseLoop_wb_tail j 2,
        superviseLoop_nil]
      simp [chunk1_chunk2]

/-- Claim C4, counterexample.  The claim says every exposed operation,
including hold and unhold, is gated behind the lock wait.  Under a lock that
is never free, a gated hold (what the claim describes) would execute
nothing; but the source's `apt_hold` runs `apt-mark hold` unconditionally —
it contains no `wait_for_apt_locks` call at all. -/
theorem C4_counterexample :
    (apt_hold_gated "vim" (fun _ => false)).executed = [] ∧
    apt_hold_run "vim" (fun _ => false) = [⟨"apt-mark", ["hold", "vim"], []⟩] := by
  refine ⟨?_, rfl⟩
  exact executed_eq_nil_of_timeout _ (waitForLockGo_locked (apt_hold "vim") 3000 0).1

/-- Claim C4, amended.  The apt-get/apt-cache/dpkg operations (autoremove,
cache, install, install -f, purge, reinstall, remove, update, upgrade,
dpkg --configure -a) are gated behind `wait_for_apt_locks` and execute no
command while the lock never frees; `apt_hold` and `apt_unhold` are not
gated and execute their `apt-mark` command regardless of the lock. -/
theorem C4_amended :
    ∀ (packages : List String) (subcommand package : String),
      (apt_autoremove (fun _ => false)).executed = [] ∧
      (apt_cache subcommand packages (fun _ => false)).executed = [] ∧
      (apt_install packages (fun _ => false)).executed = [] ∧
      (apt_install_fix_broken (fun _ => false)).executed = [] ∧
      (apt_purge packages (fun _ => false)).executed = [] ∧
      (apt_reinstall packages (fun _ => false)).executed = [] ∧
      (apt_remove packages (fun _ => false)).executed = [] ∧
      (apt_update (fun _ => false)).executed = [] ∧
      (apt_upgrade (fun _ => false)).executed = [] ∧
      (dpkg_configure_all (fun _ => false)).executed = [] ∧
      apt_hold_run package (fun _ => false) = [apt_hold package] ∧
      apt_unhold_run package (fun _ => false) = [apt_unhold package] := by
  intro packages subcommand package
  have g : ∀ c : Cmd, (wait_for_apt_locks 3000 (fun _ => false) c).executed = [] :=
    fun c => executed_eq_nil_of_timeout _ (waitForLockGo_locked c 3000 0).1
  exact ⟨g _, g _, g _, g _, g _, g _, g _, g _, g _, g _, rfl, rfl⟩

/-- Claim C5, counterexample.  The claim says both `DEBIAN_FRONTEND` and
`LANG=C` are set on every spawned apt-get command.  The install command is
an apt-get command built by `apt_noninteractive`, which sets only
`DEBIAN_FRONTEND=noninteractive`: `LANG=C` is absent (only
`apt_noninteractive_callback` adds it). -/
theorem C5_counterexample :
    (apt_install_cmd ["vim"]).program = "apt-get" ∧
    (apt_install_cmd ["vim"]).envs = [("DEBIAN_FRONTEND", "noninteractive")] ∧
    ("LANG", "C") ∉ (apt_install_cmd ["vim"]).envs :=
  ⟨by decide, by decide, by decide⟩

/-- Claim C5, amended.  Every spawned apt-get command sets
`DEBIAN_FRONTEND=noninteractive`; the commands spawned through
`apt_noninteractive_callback` (the progress-streaming upgrade path)
additionally set `LANG=C`, and they are the only ones that do. -/
theorem C5_amended :
    ∀ packages : List String,
      (apt_install_cmd packages).envs = [("DEBIAN_FRONTEND", "noninteractive")] ∧
      apt_install_fix_broken_cmd.envs = [("DEBIAN_FRONTEND", "noninteractive")] ∧
      (apt_purge_cmd packages).envs = [("DEBIAN_FRONTEND", "noninteractive")] ∧
      (apt_reinstall_cmd packages).envs = [("DEBIAN_FRONTEND", "noninteractive")] ∧
      (apt_remove_cmd packages).envs = [("DEBIAN_FRONTEND", "noninteractive")] ∧
      apt_update_cmd.envs = [("DEBIAN_FRONTEND", "noninteractive")] ∧
      apt_autoremove_cmd.envs = [("DEBIAN_FRONTEND", "noninteractive")] ∧
      apt_upgrade_cmd.envs = [("DEBIAN_FRONTEND", "noninteractive"), ("LANG", "C")] ∧
      (apt_install_cmd packages).program = "apt-get" ∧
      apt_upgrade_cmd.program = "apt-get" :=
  fun _ => ⟨rfl, rfl, rfl, rfl, rfl, rfl, rfl, rfl, rfl, rfl⟩

/-- Claim C6 (spec-modelled decoder).  In `apt_upgrade`, a line that does
not parse as a known upgrade event produces no event and does not halt
processing: a run whose output is the garbage line followed by "75% done"
yields exactly one event, for the valid line; the garbage line itself
decodes to no event. -/
theorem C6_upgrade_skip :
    apt_upgrade_events 1 (.code 0) [.data ("garbage\n75% done\n".toList)] =
      [.percent 75] ∧
    parseUpgradeEvent ("garbage\n".toList) = none ∧
    parseUpgradeEvent ("75% done\n".toList) = some (.percent 75) :=
  ⟨by decide, by decide, by decide⟩

/-- Claim C7, counterexample.  The claim says the failure is delivered after
the events for all lines emitted before exit.  Here the line "a\n" is
emitted on the child's stdout before the exit (code 1) is observed, yet the
run returns the failure with an empty event trace: lines still undrained
when the exit is observed produce no events. -/
theorem C7_counterexample :
    apt_noninteractive_callback 0 (.code 1) [.data ("a\n".toList)] =
      ⟨.err (.exited 1), []⟩ ∧
    ([] : List (List Char)) ≠ ["a\n".toList] := ⟨by decide, by decide⟩

/-- Claim C7, amended.  The supervised result is success exactly when the
child exits with code 0; a non-zero code or a signal yields a failure
carrying the exit detail.  The result always follows every delivered event,
and the delivered events are, in source order, the lines drained by polls
that ran before the exit was observed — lines still pending at that point
are dropped (see C1).  The two concrete runs deliver three ordered events
and then the result. -/
theorem C7_amended :
    (∀ (n : Nat) (status : ExitStatus) (evs : List ReadEvent),
      (apt_noninteractive_callback n status evs).result = asResult status) ∧
    (∀ status : ExitStatus, asResult status = .ok ↔ status = .code 0) ∧
    (∀ s : Nat, asResult (.signal s) = .err (.signaled s)) ∧
    apt_noninteractive_callback 1 (.code 0) [.data ("20% a\n40% b\n60% c\n".toList)] =
      ⟨.ok, ["20% a\n".toList, "40% b\n".toList, "60% c\n".toList]⟩ ∧
    apt_noninteractive_callback 1 (.code 1) [.data ("20% a\n40% b\n60% c\n".toList)] =
      ⟨.err (.exited 1), ["20% a\n".toList, "40% b\n".toList, "60% c\n".toList]⟩ :=
  ⟨fun n status evs => superviseLoop_result n status evs [] [] [],
    asResult_ok_iff, fun _ => rfl, by decide, by decide⟩

/-- Claim C8, counterexample.  The claim says every byte read is either
retained in the pending fragment across calls or flushed exactly once upon a
line terminator.  When the stream ends (end-of-file) after bytes with no
terminator, `read_line` returns `Ok(n)` with the unterminated fragment and
the loop flushes it to the callback and clears the buffer: the bytes of
"abc" are neither retained nor flushed upon a line terminator. -/
theorem C8_counterexample :
    (non_blocking_line_reading [.data ("abc".toList)] [] [] []).calls = ["abc".toList] ∧
    (non_blocking_line_reading [.data ("abc".toList)] [] [] []).buf = [] ∧
    "abc".toList.getLast? ≠ some '\n' := ⟨by decide, by decide, by decide⟩

/-- Claim C8, amended.  For every call of `non_blocking_line_reading`, the
consumed bytes are conserved: on `Ok` they appear exactly once and in order
across the flushed callback lines followed by the retained buffer and the
pending bytes; every flushed line is non-empty and is newline-terminated,
except that the final flush of a fully exhausted stream may be the trailing
unterminated fragment; on a genuine I/O error the buffer is cleared (its
bytes dropped) before the error is returned. -/
theorem C8_amended :
    ∀ (evs : List ReadEvent) (pending buf : List Char) (tr : List (List Char)),
      NblrSpec evs pending buf tr (non_blocking_line_reading evs pending buf tr) :=
  fun evs pending buf tr => nblrAux_sound _ evs pending buf tr (Nat.lt_succ_self _)

/-- Claim C9 (spec-modelled lock waiter).  If the lock is observed locked on
every polling attempt, `wait_for_apt_locks` returns the Timeout result for
every `max_attempts`, the guarded operation is never invoked, and the
timeout is distinct from any completed operation result. -/
theorem C9_timeout :
    ∀ (op : CmdResult) (maxAttempts : Nat),
      (wait_for_apt_locks maxAttempts (fun _ => false) op).result = .timeout ∧
      (wait_for_apt_locks maxAttempts (fun _ => false) op).opCalls = 0 ∧
      ∀ r : CmdResult,
        (wait_for_apt_locks maxAttempts (fun _ => false) op).result ≠ .completed r := by
  intro op k
  obtain ⟨h1, h2⟩ := waitForLockGo_locked op k 0
  refine ⟨h1, h2, fun r hr => ?_⟩
  exact WaitResult.noConfusion (h1.symm.trans hr)

/-- Claim C10.  dpkg-query output containing a line with no space character
(the empty line here) makes consuming the iterator of `installed` panic:
the second whitespace-split field is unwrapped without checking it exists.
On a line without a space, `fields.next()` the second time is `None`
(third conjunct), and the whole consumption panics (first conjunct), while
the same output without the empty line is consumed normally. -/
theorem C10_installed_panics :
    installed ("pkg installed\n\nvim installed\n".toList) = .panicked ∧
    installed ("pkg installed\nvim installed\n".toList) =
      .ok ["pkg".toList, "vim".toList] ∧
    installedLine [] = none :=
  ⟨by decide, by decide, by decide⟩
